import Mathlib

/-!
Verification of the Seldonian Engine repository.

This file gives a shallow embedding, in Lean 4, of the parts of the
repository that the behavioral-constraint machinery claims are about:

* the interval propagator of `src/parse_tree.py` (`ParseTree._add`,
  `_sub`, `_mult`, `_div`, `_pow`, `_min`, `_max`, `_abs`, `_exp`,
  `_protect_nan`);
* the parse-tree construction of `src/parse_tree.py`
  (`create_from_ast` / `_ast_tree_helper` / `_ast2pt_node`);
* the statistical bound functions of `seldonian/nodes.py`
  (`predict_HC_*` and `compute_HC_*`, `calculate_bounds`,
  `mask_dataframe`);
* the barrier objective of `seldonian/candidate_selection.py`
  (`CandidateSelection.objective_with_barrier`).

Python floats are modelled by the inductive type `Val` (a rational,
plus infinity, minus infinity, or NaN) with IEEE-style comparison and
arithmetic.  Fallible Python code (`raise`) is modelled with `Except`.
The transcendental leaf functions `stddev` and `tinv` come from the
module `stats_utils.py`, which is not part of the repository snapshot;
they, the square root, and numeric `pow`/`exp` on floats are kept as
explicit function parameters, so every theorem about the bound formulas
holds for an arbitrary interpretation of them.
-/

/-- A Python float value: NaN, +inf, -inf, or a finite number
(modelled as a rational). -/
inductive Val where
  | nan : Val
  | pinf : Val
  | ninf : Val
  | fin (q : ℚ) : Val
deriving DecidableEq, Repr

/-- IEEE `<` on Python floats: any comparison with NaN is `False`. -/
def Val.lt : Val → Val → Bool
  | .nan, _ => false
  | .ninf, .nan => false
  | .ninf, .ninf => false
  | .ninf, .pinf => true
  | .ninf, .fin _ => true
  | .pinf, _ => false
  | .fin _, .nan => false
  | .fin _, .ninf => false
  | .fin _, .pinf => true
  | .fin a, .fin b => decide (a < b)

/-- IEEE `<=` on Python floats: any comparison with NaN is `False`. -/
def Val.le : Val → Val → Bool
  | .nan, _ => false
  | .ninf, .nan => false
  | .ninf, .ninf => true
  | .ninf, .pinf => true
  | .ninf, .fin _ => true
  | .pinf, .nan => false
  | .pinf, .ninf => false
  | .pinf, .pinf => true
  | .pinf, .fin _ => false
  | .fin _, .nan => false
  | .fin _, .ninf => false
  | .fin _, .pinf => true
  | .fin a, .fin b => decide (a ≤ b)

/-- Python float addition: NaN is absorbing, `inf + (-inf)` is NaN. -/
def Val.add : Val → Val → Val
  | .nan, _ => .nan
  | _, .nan => .nan
  | .pinf, .ninf => .nan
  | .ninf, .pinf => .nan
  | .pinf, _ => .pinf
  | _, .pinf => .pinf
  | .ninf, _ => .ninf
  | _, .ninf => .ninf
  | .fin a, .fin b => .fin (a + b)

/-- Python float subtraction: NaN is absorbing, `inf - inf` is NaN. -/
def Val.sub : Val → Val → Val
  | .nan, _ => .nan
  | _, .nan => .nan
  | .pinf, .pinf => .nan
  | .ninf, .ninf => .nan
  | .pinf, _ => .pinf
  | .ninf, _ => .ninf
  | .fin _, .pinf => .ninf
  | .fin _, .ninf => .pinf
  | .fin a, .fin b => .fin (a - b)

/-- Python float multiplication: NaN is absorbing, `inf * 0` is NaN. -/
def Val.mul : Val → Val → Val
  | .nan, _ => .nan
  | _, .nan => .nan
  | .fin a, .fin b => .fin (a * b)
  | .pinf, .pinf => .pinf
  | .pinf, .ninf => .ninf
  | .ninf, .pinf => .ninf
  | .ninf, .ninf => .pinf
  | .pinf, .fin b => if b = 0 then .nan else if 0 < b then .pinf else .ninf
  | .ninf, .fin b => if b = 0 then .nan else if 0 < b then .ninf else .pinf
  | .fin a, .pinf => if a = 0 then .nan else if 0 < a then .pinf else .ninf
  | .fin a, .ninf => if a = 0 then .nan else if 0 < a then .ninf else .pinf

/-- Python's two-argument `min`: returns the second argument only if it
compares `<` to the first, so NaN in the FIRST slot is sticky and NaN in
the second slot is ignored. -/
def pymin (a b : Val) : Val := if Val.lt b a then b else a

/-- Python's two-argument `max`: returns the second argument only if it
compares `>` to the first. -/
def pymax (a b : Val) : Val := if Val.lt a b then b else a

/-- Python's `min(a, b, c, d)`: left fold of the two-argument `min`. -/
def pymin4 (a b c d : Val) : Val := pymin (pymin (pymin a b) c) d

/-- Python's `max(a, b, c, d)`: left fold of the two-argument `max`. -/
def pymax4 (a b c d : Val) : Val := pymax (pymax (pymax a b) c) d

/-- Which endpoint of an interval a value occupies
(`bound_type` argument of `ParseTree._protect_nan`). -/
inductive BoundType where
  | lower : BoundType
  | upper : BoundType
deriving DecidableEq, Repr

/-- Source `ParseTree._protect_nan`: a NaN bound becomes `-inf` in the lower
slot and `+inf` in the upper slot; every other value passes through. -/
def protect_nan (bound : Val) (boundType : BoundType) : Val :=
  if bound = .nan then
    match boundType with
    | .lower => .ninf
    | .upper => .pinf
  else bound

/-- A confidence interval `(lower, upper)` of Python floats. -/
abbrev IntervalV : Type := Val × Val

/-- Exceptions raised by the interval propagator. -/
inductive PyErr where
  | zeroDivisionError : PyErr
  | arithmeticError : PyErr
deriving DecidableEq, Repr

/-- Source `ParseTree._add`: endpointwise sum, each endpoint NaN-protected. -/
def pt_add (a b : IntervalV) : IntervalV :=
  (protect_nan (a.1.add b.1) .lower, protect_nan (a.2.add b.2) .upper)

/-- Source `ParseTree._sub`: `(a0 - b1, a1 - b0)`, each endpoint NaN-protected. -/
def pt_sub (a b : IntervalV) : IntervalV :=
  (protect_nan (a.1.sub b.2) .lower, protect_nan (a.2.sub b.1) .upper)

/-- Source `ParseTree._mult`: min and max of the four endpoint products,
each NaN-protected. -/
def pt_mult (a b : IntervalV) : IntervalV :=
  (protect_nan (pymin4 (a.1.mul b.1) (a.1.mul b.2) (a.2.mul b.1) (a.2.mul b.2)) .lower,
   protect_nan (pymax4 (a.1.mul b.1) (a.1.mul b.2) (a.2.mul b.1) (a.2.mul b.2)) .upper)

/-- Python's `1 / b` on a nonzero float: `1/inf = 0.0`, `1/(-inf)` is
`-0.0`, `1/nan = nan`.  (`pt_recip` adds the zero check.) -/
def oneOver : Val → Val
  | .nan => .nan
  | .pinf => .fin 0
  | .ninf => .fin 0
  | .fin q => .fin q⁻¹

/-- Python's `1 / b`: raises `ZeroDivisionError` on `b == 0`. -/
def pt_recip (b : Val) : Except PyErr Val :=
  if b = .fin 0 then .error .zeroDivisionError else .ok (oneOver b)

/-- Source `ParseTree._div`: piecewise on whether `b` straddles, touches, or
avoids zero; the three reciprocal branches reduce to `_mult`. -/
def pt_div (a b : IntervalV) : Except PyErr IntervalV :=
  if Val.lt b.1 (.fin 0) && Val.lt (.fin 0) b.2 then
    .ok (.ninf, .pinf)
  else if b.2 = .fin 0 then
    (pt_recip b.1).map (fun r => pt_mult a (.ninf, r))
  else if b.1 = .fin 0 then
    (pt_recip b.2).map (fun r => pt_mult a (r, .pinf))
  else
    (pt_recip b.2).bind
      (fun r1 => (pt_recip b.1).map (fun r0 => pt_mult a (r1, r0)))

/-- Source `ParseTree._pow`.  The numeric `pow` on floats is transcendental, so
it is passed in as the parameter `pw`.  A negative `a[0]` raises
`ArithmeticError`; Python's `0 in a` is TUPLE MEMBERSHIP, i.e.
`a[0] == 0 or a[1] == 0`, and together with `b[0] < 0 or b[1] < 1` it
raises `ZeroDivisionError`; otherwise the result is the NaN-protected
min and max of the four corner evaluations. -/
def pt_pow (pw : Val → Val → Val) (a b : IntervalV) : Except PyErr IntervalV :=
  if Val.lt a.1 (.fin 0) then
    .error .arithmeticError
  else if (a.1 = .fin 0 || a.2 = .fin 0)
      && (Val.lt b.1 (.fin 0) || Val.lt b.2 (.fin 1)) then
    .error .zeroDivisionError
  else
    .ok (protect_nan (pymin4 (pw a.1 b.1) (pw a.1 b.2) (pw a.2 b.1) (pw a.2 b.2)) .lower,
         protect_nan (pymax4 (pw a.1 b.1) (pw a.1 b.2) (pw a.2 b.1) (pw a.2 b.2)) .upper)

/-- Source `ParseTree._min`: componentwise Python `min`, with NO NaN
protection. -/
def pt_min (a b : IntervalV) : IntervalV :=
  (pymin a.1 b.1, pymin a.2 b.2)

/-- Source `ParseTree._max`: componentwise Python `max`, with NO NaN
protection. -/
def pt_max (a b : IntervalV) : IntervalV :=
  (pymax a.1 b.1, pymax a.2 b.2)

/-- Source `np.sign` on a Python float: NaN maps to NaN. -/
def vsign : Val → Val
  | .nan => .nan
  | .pinf => .fin 1
  | .ninf => .fin (-1)
  | .fin q => .fin (if q < 0 then -1 else if q = 0 then 0 else 1)

/-- Python `==` on floats: NaN compares unequal to everything,
including itself. -/
def pyEq (a b : Val) : Bool :=
  match a, b with
  | .nan, _ => false
  | _, .nan => false
  | x, y => x == y

/-- Python `abs` on a float. -/
def vabs : Val → Val
  | .nan => .nan
  | .pinf => .pinf
  | .ninf => .pinf
  | .fin q => .fin |q|

/-- Source `ParseTree._abs`: lower endpoint is the smaller absolute endpoint
when the signs agree and `0` otherwise; upper endpoint is the larger
absolute endpoint; both NaN-protected. -/
def pt_abs (a : IntervalV) : IntervalV :=
  (protect_nan
    (if pyEq (vsign a.1) (vsign a.2) then pymin (vabs a.1) (vabs a.2) else .fin 0)
    .lower,
   protect_nan (pymax (vabs a.1) (vabs a.2)) .upper)

/-- Source `np.exp` on a Python float: `exp(-inf) = 0.0`, `exp(inf) = inf`,
`exp(nan) = nan`; the transcendental finite case is the parameter
`ex` (it never produces NaN in NumPy, but no theorem below relies on
that). -/
def vexp (ex : ℚ → Val) : Val → Val
  | .nan => .nan
  | .pinf => .pinf
  | .ninf => .fin 0
  | .fin q => ex q

/-- Source `ParseTree._exp`: endpointwise `np.exp`, each endpoint
NaN-protected. -/
def pt_exp (ex : ℚ → Val) (a : IntervalV) : IntervalV :=
  (protect_nan (vexp ex a.1) .lower, protect_nan (vexp ex a.2) .upper)

/-- An interval has no NaN endpoint. -/
def nanFree (p : IntervalV) : Prop := p.1 ≠ .nan ∧ p.2 ≠ .nan

/-- A fallible interval result has no NaN endpoint when it returns. -/
def exceptNanFree : Except PyErr IntervalV → Prop
  | .error _ => True
  | .ok p => nanFree p

/-- The value stored in a `ConstantNode`: either Euler's number `e`
(`np.e`, which is irrational) or a numeric literal. -/
inductive ConstVal where
  | euler : ConstVal
  | num (q : ℚ) : ConstVal
deriving DecidableEq, Repr

/-- The arithmetic binary operators accepted by the parser.
Modelled from the spec: the operator map `op_mapper` lives in the
module `nodes.py` of the `src` package, which is absent from the
repository snapshot; section 4.1 of the spec lists the accepted infix
operators `+ - * / **` with node names `add`, `sub`, `mult`, `div`,
`pow`. -/
inductive BinOpKind where
  | add : BinOpKind
  | sub : BinOpKind
  | mult : BinOpKind
  | div : BinOpKind
  | pow : BinOpKind
deriving DecidableEq, Repr

/-- The node name an accepted arithmetic operator maps to. -/
def BinOpKind.opName : BinOpKind → String
  | .add => "add"
  | .sub => "sub"
  | .mult => "mult"
  | .div => "div"
  | .pow => "pow"

/-- The fragment of Python's `ast` expression nodes that
`ParseTree._ast_tree_helper` consumes: arithmetic `ast.BinOp`,
the `ast.BitOr` conditional form `(Measure | [Col, ...])` (whose right
operand is a bracketed identifier list), `ast.Name`, numeric
`ast.Constant`, and `ast.Call` with an identifier callee. -/
inductive Ast where
  | binop (op : BinOpKind) (left right : Ast) : Ast
  | bitor (measure : String) (cols : List String) : Ast
  | name (id : String) : Ast
  | const (value : ℚ) : Ast
  | call (funcId : String) (args : List Ast) : Ast

/-- The errors `_ast_tree_helper` / `_ast2pt_node` can raise:
`unknownMeasure` is the `NotImplementedError` for a variable name
outside the measure catalog, `badCallArity` is the
`NotImplementedError` for a call with zero or more than two
arguments. -/
inductive ParseErr where
  | unknownMeasure (id : String) : ParseErr
  | badCallArity (funcId : String) (nargs : ℕ) : ParseErr
deriving DecidableEq, Repr

/-- A materialized parse-tree node.  `internal` covers `InternalNode`
(operators and calls, children in `left` / `right`), `base` covers
`BaseNode` (measure leaves with their conditional columns), `constN`
covers `ConstantNode`.  Bookkeeping fields that no claim touches
(`measure_function_name`, `delta`, the bound slots, graphviz fontsize)
are omitted. -/
inductive PNode where
  | internal (name : String) (index : ℕ) (left right : Option PNode) : PNode
  | base (name : String) (index : ℕ) (conditionalColumns : List String) : PNode
  | constN (name : String) (value : ConstVal) (index : ℕ) : PNode

/-- The canonical name of a conditional base leaf,
`'(' + measure + ' | ' + str(cols) + ')'` (Python additionally quotes
each column name inside the brackets). -/
def conditionalName (measure : String) (cols : List String) : String :=
  "(" ++ measure ++ " | [" ++ String.intercalate ", " cols ++ "])"

/-- Source `ParseTree._ast_tree_helper` (with `_ast2pt_node` inlined): build a
parse-tree node from an `ast` node.  The running counter `i` is the
tree's `node_index`; a freshly materialized node takes the current
counter value and increments it BEFORE its children are built.  The
returned counter equals the number of nodes materialized so far, which
is exactly the tree's `n_nodes` when the build starts from `0`.
Updates to `base_node_dict` and `n_base_nodes` are omitted (no claim
below reads them). -/
def buildHelper (measureFns : List String) : Ast → ℕ → Except ParseErr (PNode × ℕ)
  | .binop op l r, i => do
    let (ln, i1) ← buildHelper measureFns l (i + 1)
    let (rn, i2) ← buildHelper measureFns r i1
    .ok (.internal op.opName i (some ln) (some rn), i2)
  | .bitor measure cols, i =>
    .ok (.base (conditionalName measure cols) i cols, i + 1)
  | .name id, i =>
    if id = "e" then .ok (.constN "e" .euler i, i + 1)
    else if id ∈ measureFns then .ok (.base id i [], i + 1)
    else .error (.unknownMeasure id)
  | .const v, i => .ok (.constN (toString v) (.num v) i, i + 1)
  | .call f args, i =>
    if f ∈ measureFns then
      .ok (.internal f i none none, i + 1)
    else
      match args with
      | [a] => do
        let (ln, i1) ← buildHelper measureFns a (i + 1)
        .ok (.internal f i (some ln) none, i1)
      | [a, b] => do
        let (ln, i1) ← buildHelper measureFns a (i + 1)
        let (rn, i2) ← buildHelper measureFns b i1
        .ok (.internal f i (some ln) (some rn), i2)
      | _ => .error (.badCallArity f args.length)

/-- Source `ParseTree.create_from_ast` on an already-parsed single
expression: build the tree starting from `node_index = 0`; the second
component of the result is the final counter, i.e. `n_nodes`. -/
def create_from_ast (measureFns : List String) (a : Ast) : Except ParseErr (PNode × ℕ) :=
  buildHelper measureFns a 0

/-- The catalog of measure function names.
Modelled from the spec: `measure_functions` lives in the absent
`src` `nodes.py` module; the spec's glossary lists the supported
statistics. -/
def measure_functions : List String :=
  ["PR", "FPR", "FNR", "MSE", "mean_error", "J_pi_new"]

/-- The node indices of a tree read off in pre-order
(root, left, right). -/
def PNode.preorderIndices : PNode → List ℕ
  | .base _ i _ => [i]
  | .constN _ _ i => [i]
  | .internal _ i l r =>
    i :: ((match l with | none => [] | some t => t.preorderIndices)
      ++ (match r with | none => [] | some t => t.preorderIndices))

/-- The node indices of a tree read off in post-order
(left, right, root). -/
def PNode.postorderIndices : PNode → List ℕ
  | .base _ i _ => [i]
  | .constN _ _ i => [i]
  | .internal _ i l r =>
    ((match l with | none => [] | some t => t.postorderIndices)
      ++ (match r with | none => [] | some t => t.postorderIndices)) ++ [i]

/-- Source `numpy.ndarray.mean` of the estimator sample vector
(rationals; an empty vector yields `0` under rational division by
zero, a case that no theorem below exercises). -/
def npMean (data : List ℚ) : ℚ := data.sum / data.length

/-- Source `BaseNode.predict_HC_lowerbound` with `bound_method = 'ttest'`
(candidate selection): `mean - 2 * stddev / sqrt(datasize) *
tinv(1 - delta, datasize - 1)`.  `stddev` and `tinv` are the
(transcendental) functions of the absent `stats_utils.py`, `sqrtN` is
`np.sqrt` on the integer `datasize`; all three are parameters. -/
def predict_HC_lowerbound (stddev : List ℚ → ℚ) (sqrtN : ℕ → ℚ) (tinv : ℚ → ℕ → ℚ)
    (data : List ℚ) (datasize : ℕ) (delta : ℚ) : ℚ :=
  npMean data - 2 * stddev data / sqrtN datasize * tinv (1 - delta) (datasize - 1)

/-- Source `BaseNode.predict_HC_upperbound` with `bound_method = 'ttest'`
(candidate selection): `mean + 2 * stddev / sqrt(datasize) *
tinv(1 - delta, datasize - 1)`. -/
def predict_HC_upperbound (stddev : List ℚ → ℚ) (sqrtN : ℕ → ℚ) (tinv : ℚ → ℕ → ℚ)
    (data : List ℚ) (datasize : ℕ) (delta : ℚ) : ℚ :=
  npMean data + 2 * stddev data / sqrtN datasize * tinv (1 - delta) (datasize - 1)

/-- Source `BaseNode.predict_HC_upper_and_lowerbound` with
`bound_method = 'ttest'`: the two one-sided candidate-selection bounds,
each called with `delta / 2`. -/
def predict_HC_upper_and_lowerbound (stddev : List ℚ → ℚ) (sqrtN : ℕ → ℚ)
    (tinv : ℚ → ℕ → ℚ) (data : List ℚ) (datasize : ℕ) (delta : ℚ) : ℚ × ℚ :=
  (predict_HC_lowerbound stddev sqrtN tinv data datasize (delta / 2),
   predict_HC_upperbound stddev sqrtN tinv data datasize (delta / 2))

/-- Source `BaseNode.compute_HC_lowerbound` with `bound_method = 'ttest'`
(safety test): `mean - stddev / sqrt(datasize) *
tinv(1 - delta, datasize - 1)`. -/
def compute_HC_lowerbound (stddev : List ℚ → ℚ) (sqrtN : ℕ → ℚ) (tinv : ℚ → ℕ → ℚ)
    (data : List ℚ) (datasize : ℕ) (delta : ℚ) : ℚ :=
  npMean data - stddev data / sqrtN datasize * tinv (1 - delta) (datasize - 1)

/-- Source `BaseNode.compute_HC_upperbound` with `bound_method = 'ttest'`
(safety test): `mean + stddev / sqrt(datasize) *
tinv(1 - delta, datasize - 1)`. -/
def compute_HC_upperbound (stddev : List ℚ → ℚ) (sqrtN : ℕ → ℚ) (tinv : ℚ → ℕ → ℚ)
    (data : List ℚ) (datasize : ℕ) (delta : ℚ) : ℚ :=
  npMean data + stddev data / sqrtN datasize * tinv (1 - delta) (datasize - 1)

/-- Source `BaseNode.compute_HC_upper_and_lowerbound` with
`bound_method = 'ttest'`: the two one-sided safety-test bounds, each
called with `delta / 2`. -/
def compute_HC_upper_and_lowerbound (stddev : List ℚ → ℚ) (sqrtN : ℕ → ℚ)
    (tinv : ℚ → ℕ → ℚ) (data : List ℚ) (datasize : ℕ) (delta : ℚ) : ℚ × ℚ :=
  (compute_HC_lowerbound stddev sqrtN tinv data datasize (delta / 2),
   compute_HC_upperbound stddev sqrtN tinv data datasize (delta / 2))

/-- The `branch` keyword distinguishing the two scoring regimes. -/
inductive Branch where
  | candidate_selection : Branch
  | safety_test : Branch
deriving DecidableEq, Repr

/-- Source `BaseNode.calculate_bounds`, `bound_method = 'ttest'` arm: given
the estimator sample vector `data` (`zhat`'s output), dispatch on the
`will_lower_bound` / `will_upper_bound` flags and the branch, and
return the dictionary `{'lower': ..., 'upper': ...}` (a pair of
optional rationals, `none` for an absent key); both flags `False` is
the `AssertionError`.  The `'manual'` and `'random'` arms of the
source (debug-only per the spec) are not modelled. -/
def calculate_bounds (stddev : List ℚ → ℚ) (sqrtN : ℕ → ℚ) (tinv : ℚ → ℕ → ℚ)
    (branch : Branch) (willLower willUpper : Bool)
    (data : List ℚ) (datasize : ℕ) (delta : ℚ) :
    Except String (Option ℚ × Option ℚ) :=
  match willLower, willUpper with
  | true, true =>
    match branch with
    | .candidate_selection =>
      let lu := predict_HC_upper_and_lowerbound stddev sqrtN tinv data datasize delta
      .ok (some lu.1, some lu.2)
    | .safety_test =>
      let lu := compute_HC_upper_and_lowerbound stddev sqrtN tinv data datasize delta
      .ok (some lu.1, some lu.2)
  | true, false =>
    match branch with
    | .candidate_selection =>
      .ok (some (predict_HC_lowerbound stddev sqrtN tinv data datasize delta), none)
    | .safety_test =>
      .ok (some (compute_HC_lowerbound stddev sqrtN tinv data datasize delta), none)
  | false, true =>
    match branch with
    | .candidate_selection =>
      .ok (none, some (predict_HC_upperbound stddev sqrtN tinv data datasize delta))
    | .safety_test =>
      .ok (none, some (compute_HC_upperbound stddev sqrtN tinv data datasize delta))
  | false, false =>
    .error "will_lower_bound and will_upper_bound cannot both be False"

/-- Source `ParseTree._propagator_helper` on a tree whose root is a single
base leaf with both bound flags set (their `Node.__init__` default),
fresh cache, `bound_method = 'ttest'`: the leaf's `(lower, upper)` slot
assignment — which is also the root's interval for this tree.  The
estimator samples `data` are `zhat`'s output on the prepared leaf data
and `datasize` comes from `calculate_data_forbound`.  Reading the two
entries of the returned bound dictionary into `node.lower` /
`node.upper` follows the spec's description of propagation (the glue
module `src/nodes.py` is absent from the snapshot). -/
def propagate_bounds_single_leaf (stddev : List ℚ → ℚ) (sqrtN : ℕ → ℚ)
    (tinv : ℚ → ℕ → ℚ) (branch : Branch) (delta : ℚ)
    (data : List ℚ) (datasize : ℕ) : Option (ℚ × ℚ) :=
  match calculate_bounds stddev sqrtN tinv branch true true data datasize delta with
  | .ok (some l, some u) => some (l, u)
  | _ => none

/-- Source `BaseNode.mask_dataframe` (source text, `seldonian/nodes.py` lines
218-221): the column index is HARDCODED to `0` when the FIRST
conditional column is named `'M'` and to `1` otherwise, and only that
single column is compared against `1`; a dataframe is a list of
numeric rows. -/
def mask_dataframe (conditional_columns : List String)
    (dfValues : List (List ℚ)) : List (List ℚ) :=
  let colIndex : ℕ := if conditional_columns.headD "" = "M" then 0 else 1
  dfValues.filter (fun row => decide (row.getD colIndex 0 = 1))

/-- Modelled from the spec (and from `mask_dataframe`'s own docstring,
which the source body does not implement): keep exactly the rows in
which EVERY named conditional column — located by name in the
dataset's column list — equals `1`. -/
def mask_dataframe_spec (columns : List String) (conditional_columns : List String)
    (dfValues : List (List ℚ)) : List (List ℚ) :=
  dfValues.filter (fun row =>
    conditional_columns.all (fun c => decide (row.getD (columns.indexOf c) 0 = 1)))

/-- The per-tree loop body of
`CandidateSelection.objective_with_barrier` in `'barrier_function'`
mode: state is `(result, predictSafetyTest)`; a violating root upper
(`> 0`) overwrites `result` with `100000.0` if it is the first
violation seen, and is then added to `result` in either case. -/
def barrierLoop : ℚ → Bool → List ℚ → ℚ
  | result, _, [] => result
  | result, predictSafetyTest, upper :: rest =>
    if 0 < upper then
      if predictSafetyTest then barrierLoop (100000 + upper) false rest
      else barrierLoop (result + upper) false rest
    else barrierLoop result predictSafetyTest rest

/-- Source `CandidateSelection.objective_with_barrier` with
`optimization_technique = 'barrier_function'`: `primary` is the primary
objective already evaluated at `theta` on the candidate data, and
`rootUppers` lists, in parse-tree list order, the root upper bound each
tree's `propagate_bounds` produced at `theta`. -/
def objective_with_barrier (primary : ℚ) (rootUppers : List ℚ) : ℚ :=
  barrierLoop primary true rootUppers

/-- C1: for a parse tree propagated with `bound_method = 'ttest'` in the
`safety_test` branch with both bound sides needed, each base node's
lower and upper bound — hence the root's, for a single-leaf tree — are
set to `mean(z) - (s / sqrt n) * t(1 - delta/2, n - 1)` and
`mean(z) + (s / sqrt n) * t(1 - delta/2, n - 1)`, where `z` is the
leaf's estimator sample vector, `s` its sample standard deviation and
`n` the leaf's datasize, for every interpretation of the
transcendental functions `stddev`, `sqrt` and `tinv`. -/
theorem safety_test_ttest_bounds (stddev : List ℚ → ℚ) (sqrtN : ℕ → ℚ)
    (tinv : ℚ → ℕ → ℚ) (delta : ℚ) (data : List ℚ) (datasize : ℕ) :
    propagate_bounds_single_leaf stddev sqrtN tinv .safety_test delta data datasize =
      some (npMean data - stddev data / sqrtN datasize * tinv (1 - delta / 2) (datasize - 1),
            npMean data + stddev data / sqrtN datasize * tinv (1 - delta / 2) (datasize - 1)) :=
  rfl

/-- C9: the candidate-selection upper bound equals
`mean + 2 * (s / sqrt n) * t(1 - delta, n - 1)`, its half-width above
the mean is exactly twice that of the safety-test upper bound from the
same data, datasize and `delta`, and symmetrically for the lower
bounds. -/
theorem predict_bound_double_halfwidth (stddev : List ℚ → ℚ) (sqrtN : ℕ → ℚ)
    (tinv : ℚ → ℕ → ℚ) (data : List ℚ) (datasize : ℕ) (delta : ℚ)
    (_hn : 2 ≤ datasize) (_hd0 : 0 < delta) (_hd1 : delta < 1) :
    predict_HC_upperbound stddev sqrtN tinv data datasize delta =
      npMean data + 2 * (stddev data / sqrtN datasize) * tinv (1 - delta) (datasize - 1)
    ∧ predict_HC_upperbound stddev sqrtN tinv data datasize delta - npMean data =
      2 * (compute_HC_upperbound stddev sqrtN tinv data datasize delta - npMean data)
    ∧ npMean data - predict_HC_lowerbound stddev sqrtN tinv data datasize delta =
      2 * (npMean data - compute_HC_lowerbound stddev sqrtN tinv data datasize delta) := by
  refine ⟨?_, ?_, ?_⟩ <;>
    simp only [predict_HC_upperbound, predict_HC_lowerbound,
      compute_HC_upperbound, compute_HC_lowerbound] <;> ring

/-- Witness for C9 at a concrete instantiation of the data and the
transcendental parameters. -/
theorem predict_bound_double_halfwidth_witness :
    predict_HC_upperbound (fun _ => 1) (fun n => (n : ℚ)) (fun _ _ => 1) [1, 2] 4 (1/2) =
      npMean [1, 2] + 2 * ((1 : ℚ) / (4 : ℚ)) * 1
    ∧ predict_HC_upperbound (fun _ => 1) (fun n => (n : ℚ)) (fun _ _ => 1) [1, 2] 4 (1/2)
        - npMean [1, 2] =
      2 * (compute_HC_upperbound (fun _ => 1) (fun n => (n : ℚ)) (fun _ _ => 1) [1, 2] 4 (1/2)
        - npMean [1, 2])
    ∧ npMean [1, 2]
        - predict_HC_lowerbound (fun _ => 1) (fun n => (n : ℚ)) (fun _ _ => 1) [1, 2] 4 (1/2) =
      2 * (npMean [1, 2]
        - compute_HC_lowerbound (fun _ => 1) (fun n => (n : ℚ)) (fun _ _ => 1) [1, 2] 4 (1/2)) :=
  predict_bound_double_halfwidth (fun _ => 1) (fun n => (n : ℚ)) (fun _ _ => 1) [1, 2] 4 (1/2)
    (by norm_num) (by norm_num) (by norm_num)

/-- C2: evaluation of `mask_dataframe` at a failing input.  With
conditional columns `['F', 'M']` on a dataset whose columns are
`['M', 'F', 'x', 'label']` and a single row with `M = 0`, `F = 1`, the
source keeps the row (it only tests the hardcoded column index `1`),
while the claimed AND-mask over every named conditional column — the
behaviour `mask_dataframe`'s own docstring describes — drops it
because `M = 0`. -/
theorem mask_dataframe_first_column_only :
    mask_dataframe ["F", "M"] [[0, 1, 5, 1]] = [[0, 1, 5, 1]]
    ∧ mask_dataframe_spec ["M", "F", "x", "label"] ["F", "M"] [[0, 1, 5, 1]] = [] :=
  ⟨rfl, rfl⟩

/-- C10: dividing any interval by the point interval `[0, 0]` raises
`ZeroDivisionError` (the `b1 = 0` branch evaluates `1 / b0` with
`b0 = 0`) instead of returning an interval. -/
theorem div_by_point_zero_raises (a : IntervalV) :
    pt_div a (Val.fin 0, Val.fin 0) = .error .zeroDivisionError :=
  rfl

/-- State of `barrierLoop` once a violation has been recorded
(`predictSafetyTest = False`): every later violating upper bound is
added to the running result. -/
theorem barrierLoop_after_violation (rest : List ℚ) :
    ∀ r : ℚ, barrierLoop r false rest = r + (rest.filter (fun u => decide (0 < u))).sum := by
  induction rest with
  | nil => intro r; simp [barrierLoop]
  | cons u rest ih =>
    intro r
    by_cases h : 0 < u
    · simp [barrierLoop, h, ih, List.filter_cons]
      ring
    · simp [barrierLoop, h, ih, List.filter_cons]

/-- C5: in barrier-function mode, if at least one propagated root upper
bound exceeds `0`, `objective_with_barrier` returns exactly `100000.0`
plus the sum of the root upper bounds of all violating trees,
regardless of the primary objective's value; when no root upper bound
exceeds `0` it returns the primary objective value unchanged. -/
theorem objective_with_barrier_spec (primary : ℚ) (rootUppers : List ℚ) :
    ((∃ u ∈ rootUppers, 0 < u) →
      objective_with_barrier primary rootUppers =
        100000 + (rootUppers.filter (fun u => decide (0 < u))).sum)
    ∧ ((∀ u ∈ rootUppers, u ≤ 0) →
      objective_with_barrier primary rootUppers = primary) := by
  constructor
  · intro h
    unfold objective_with_barrier
    induction rootUppers with
    | nil => simp at h
    | cons u rest ih =>
      by_cases hu : 0 < u
      · simp [barrierLoop, hu, barrierLoop_after_violation, List.filter_cons]
        ring
      · obtain ⟨v, hv, hv0⟩ := h
        rcases List.mem_cons.mp hv with rfl | hv'
        · exact absurd hv0 hu
        · simp only [barrierLoop, if_neg hu]
          rw [List.filter_cons_of_neg (by simpa using hu)]
          exact ih ⟨v, hv', hv0⟩
  · intro h
    unfold objective_with_barrier
    induction rootUppers with
    | nil => rfl
    | cons u rest ih =>
      have hu : ¬ 0 < u := not_lt.mpr (h u (List.mem_cons_self u rest))
      simp only [barrierLoop, if_neg hu]
      exact ih fun v hv => h v (List.mem_cons_of_mem u hv)

/-- Witness for C5: with primary value `7` and root uppers `[-1, 2]`
the barrier objective is `100000 + 2`. -/
theorem objective_with_barrier_spec_witness :
    objective_with_barrier 7 [-1, 2] = 100002 := by
  have h := (objective_with_barrier_spec 7 [-1, 2]).1
    ⟨2, by norm_num, by norm_num⟩
  norm_num [List.filter_cons] at h
  exact h

/-- The output of `_protect_nan` is never NaN. -/
theorem protect_nan_ne_nan (v : Val) (t : BoundType) : protect_nan v t ≠ .nan := by
  by_cases h : v = .nan
  · cases t <;> simp [protect_nan, h]
  · simp [protect_nan, h]

/-- A protected endpoint pair has no NaN endpoint. -/
theorem protected_pair_nanFree (x y : Val) :
    nanFree (protect_nan x .lower, protect_nan y .upper) := by
  constructor
  · exact protect_nan_ne_nan x .lower
  · exact protect_nan_ne_nan y .upper

/-- C4 (amended): for `add`, `sub`, `mult`, `div`, `pow`, `abs` and
`exp` — but not `min` and `max`, which apply no NaN replacement —
every endpoint of the combined interval passes through `_protect_nan`,
so the result never contains a NaN endpoint, whatever the child
intervals (and whatever the numeric `pow` / `exp` functions). -/
theorem nan_protection_except_minmax (pw : Val → Val → Val) (ex : ℚ → Val)
    (a b : IntervalV) :
    nanFree (pt_add a b) ∧ nanFree (pt_sub a b) ∧ nanFree (pt_mult a b)
    ∧ exceptNanFree (pt_div a b) ∧ exceptNanFree (pt_pow pw a b)
    ∧ nanFree (pt_abs a) ∧ nanFree (pt_exp ex a) := by
  refine ⟨protected_pair_nanFree _ _, protected_pair_nanFree _ _,
    protected_pair_nanFree _ _, ?_, ?_, protected_pair_nanFree _ _,
    protected_pair_nanFree _ _⟩
  · unfold pt_div
    split
    · exact ⟨by simp, by simp⟩
    · split
      · cases pt_recip b.1 with
        | error e => exact trivial
        | ok r => exact protected_pair_nanFree _ _
      · split
        · cases pt_recip b.2 with
          | error e => exact trivial
          | ok r => exact protected_pair_nanFree _ _
        · cases pt_recip b.2 with
          | error e => exact trivial
          | ok r1 =>
            cases pt_recip b.1 with
            | error e => exact trivial
            | ok r0 => exact protected_pair_nanFree _ _
  · unfold pt_pow
    split
    · exact trivial
    · split
      · exact trivial
      · exact protected_pair_nanFree _ _

/-- C4 counterexample: `_min` applies no NaN protection, so a child
interval with a NaN endpoint produces a propagated interval whose
lower endpoint is NaN (Python's `min(nan, 1.0)` is `nan`). -/
theorem min_propagates_nan :
    pt_min (Val.nan, Val.fin 5) (Val.fin 1, Val.fin 7) = (Val.nan, Val.fin 5)
    ∧ ¬ nanFree (pt_min (Val.nan, Val.fin 5) (Val.fin 1, Val.fin 7)) :=
  ⟨rfl, fun h => h.1 rfl⟩

/-- C6: interval division follows the piecewise rule of the spec: a
divisor straddling zero gives `(-inf, +inf)`; a divisor touching zero
from below reduces to `mult(a, (-inf, 1/b0))`; touching from above to
`mult(a, (1/b1, +inf))`; and a divisor bounded away from zero to
`mult(a, (1/b1, 1/b0))`. -/
theorem div_piecewise (a0 a1 b0 b1 : Val)
    (_ha : Val.le a0 a1 = true) (_hb : Val.le b0 b1 = true) :
    (Val.lt b0 (.fin 0) = true → Val.lt (.fin 0) b1 = true →
      pt_div (a0, a1) (b0, b1) = .ok (.ninf, .pinf))
    ∧ (b1 = .fin 0 → b0 ≠ .fin 0 →
      pt_div (a0, a1) (b0, b1) = .ok (pt_mult (a0, a1) (.ninf, oneOver b0)))
    ∧ (b0 = .fin 0 → b1 ≠ .fin 0 →
      pt_div (a0, a1) (b0, b1) = .ok (pt_mult (a0, a1) (oneOver b1, .pinf)))
    ∧ (¬(Val.lt b0 (.fin 0) = true ∧ Val.lt (.fin 0) b1 = true) →
      b0 ≠ .fin 0 → b1 ≠ .fin 0 →
      pt_div (a0, a1) (b0, b1) = .ok (pt_mult (a0, a1) (oneOver b1, oneOver b0))) := by
  refine ⟨?_, ?_, ?_, ?_⟩
  · intro h1 h2
    simp [pt_div, h1, h2]
  · intro h1 h2
    subst h1
    simp [pt_div, pt_recip, h2, Except.map,
      show (Val.fin 0).lt (Val.fin 0) = false from rfl]
  · intro h1 h2
    subst h1
    simp [pt_div, pt_recip, h2, Except.map,
      show (Val.fin 0).lt (Val.fin 0) = false from rfl]
  · intro h1 h2 h3
    have h4 : (Val.lt b0 (.fin 0) && Val.lt (.fin 0) b1) = false := by
      cases hA : Val.lt b0 (.fin 0) <;> cases hB : Val.lt (.fin 0) b1 <;> simp_all
    simp [pt_div, pt_recip, h2, h3, h4, Except.map, Except.bind]

/-- Witness for C6: `[1, 2] / [-1, 1]` yields `(-inf, +inf)`. -/
theorem div_piecewise_witness :
    pt_div (Val.fin 1, Val.fin 2) (Val.fin (-1), Val.fin 1) = .ok (Val.ninf, Val.pinf) :=
  (div_piecewise (Val.fin 1) (Val.fin 2) (Val.fin (-1)) (Val.fin 1)
    (by decide) (by decide)).1 (by decide) (by decide)


/-- On a valid interval whose lower endpoint is not below zero,
Python's tuple membership `0 in a` — i.e. `a0 == 0 or a1 == 0` —
coincides with genuine interval membership `a0 <= 0 <= a1`. -/
theorem zero_tuple_mem_iff (a0 a1 : Val) (ha : Val.le a0 a1 = true)
    (h0 : Val.lt a0 (.fin 0) = false) :
    (a0 = .fin 0 ∨ a1 = .fin 0) ↔
      (Val.le a0 (.fin 0) = true ∧ Val.le (.fin 0) a1 = true) := by
  cases a0 <;> cases a1 <;>
    simp_all only [Val.le, Val.lt, decide_eq_true_eq, decide_eq_false_iff_not,
      Val.fin.injEq, Bool.true_eq_false, Bool.false_eq_true, false_or, or_false,
      false_and, and_false, true_and, and_true, iff_false, not_or, false_iff,
      iff_true, not_false_eq_true, not_and, or_self]
  case pinf.pinf =>
    exact fun h => nomatch h
  case fin.pinf q =>
    constructor
    · rintro (rfl | h)
      · exact le_refl 0
      · exact nomatch h
    · intro hq
      exact Or.inl (le_antisymm hq (not_lt.mp h0))
  case fin.fin q r =>
    constructor
    · rintro (rfl | rfl)
      · exact ⟨le_refl 0, ha⟩
      · exact ⟨ha, le_refl 0⟩
    · rintro ⟨hq, -⟩
      exact Or.inl (le_antisymm hq (not_lt.mp h0))

/-- C7: `pow(a, b)` raises exactly when `a0 < 0` or when `0` lies in
`[a0, a1]` while `b` reaches below `1` (or `0`); in every other case
it returns the (NaN-protected) min and max of the four corner
evaluations of the numeric `pow`.  In the source the membership test
is Python's tuple membership `0 in a`, which agrees with interval
membership on valid intervals. -/
theorem pow_error_iff_and_corners (pw : Val → Val → Val) (a0 a1 b0 b1 : Val)
    (ha : Val.le a0 a1 = true) (_hb : Val.le b0 b1 = true) :
    ((∃ e, pt_pow pw (a0, a1) (b0, b1) = .error e) ↔
      (Val.lt a0 (.fin 0) = true ∨
        ((Val.le a0 (.fin 0) = true ∧ Val.le (.fin 0) a1 = true)
          ∧ (Val.lt b0 (.fin 0) = true ∨ Val.lt b1 (.fin 1) = true))))
    ∧ (∀ lo hi, pt_pow pw (a0, a1) (b0, b1) = .ok (lo, hi) →
        lo = protect_nan (pymin4 (pw a0 b0) (pw a0 b1) (pw a1 b0) (pw a1 b1)) .lower
        ∧ hi = protect_nan (pymax4 (pw a0 b0) (pw a0 b1) (pw a1 b0) (pw a1 b1)) .upper) := by
  constructor
  · constructor
    · rintro ⟨e, he⟩
      simp only [pt_pow] at he
      split_ifs at he with h1 h2
      · exact Or.inl h1
      · have h1' : Val.lt a0 (.fin 0) = false := by
          simpa using h1
        simp only [Bool.and_eq_true, Bool.or_eq_true, decide_eq_true_eq] at h2
        exact Or.inr ⟨(zero_tuple_mem_iff a0 a1 ha h1').mp h2.1, h2.2⟩
    · intro h
      by_cases h1 : Val.lt a0 (.fin 0) = true
      · refine ⟨.arithmeticError, ?_⟩
        simp only [pt_pow]
        rw [if_pos h1]
      · have h1' : Val.lt a0 (.fin 0) = false := by simpa using h1
        rcases h with h | ⟨hmem, hbc⟩
        · exact absurd h h1
        · refine ⟨.zeroDivisionError, ?_⟩
          simp only [pt_pow]
          rw [if_neg h1, if_pos (by
            simp only [Bool.and_eq_true, Bool.or_eq_true, decide_eq_true_eq]
            exact ⟨(zero_tuple_mem_iff a0 a1 ha h1').mpr hmem, hbc⟩)]
  · intro lo hi h
    simp only [pt_pow] at h
    split_ifs at h
    rw [Except.ok.injEq, Prod.mk.injEq] at h
    exact ⟨h.1.symm, h.2.symm⟩

/-- Witness for C7: `pow([0, 1], [-1, 1])` raises a domain error, for
any interpretation of the numeric `pow`. -/
theorem pow_error_iff_and_corners_witness :
    ∃ e, pt_pow (fun _ _ => Val.fin 0) (Val.fin 0, Val.fin 1) (Val.fin (-1), Val.fin 1) =
      .error e :=
  (pow_error_iff_and_corners (fun _ _ => Val.fin 0) (Val.fin 0) (Val.fin 1)
    (Val.fin (-1)) (Val.fin 1) (by decide) (by decide)).1.mpr
    (Or.inr ⟨⟨by decide, by decide⟩, Or.inl (by decide)⟩)

/-- Inversion for a successful `Except` bind. -/
theorem exceptBind_ok {ε α β : Type} {e : Except ε α} {f : α → Except ε β} {b : β}
    (h : (e >>= f) = .ok b) : ∃ x, e = .ok x ∧ f x = .ok b := by
  cases e with
  | error err => exact absurd h (by simp [Bind.bind, Except.bind])
  | ok x => exact ⟨x, rfl, by simpa [Bind.bind, Except.bind] using h⟩

/-- Counter discipline of `_ast_tree_helper`: a successful build that
starts at counter `i` and finishes at counter `j` consumed the index
range `[i, j)`, handing the indices out in PRE-order (each node takes
the counter value before its children are built). -/
theorem buildHelper_range (m : List String) :
    ∀ (a : Ast) (i : ℕ), ∀ nd j, buildHelper m a i = .ok (nd, j) →
      i < j ∧ PNode.preorderIndices nd = List.range' i (j - i) := by
  intro a i
  induction a, i using buildHelper.induct m with
  | case1 op l r i ihl ihr =>
    intro nd j h
    simp only [buildHelper] at h
    obtain ⟨⟨ln, i1⟩, hl, h⟩ := exceptBind_ok h
    obtain ⟨⟨rn, i2⟩, hr, h⟩ := exceptBind_ok h
    rw [Except.ok.injEq, Prod.mk.injEq] at h
    obtain ⟨hnd, hj⟩ := h
    subst hnd
    subst hj
    obtain ⟨hl1, hl2⟩ := ihl ln i1 hl
    obtain ⟨hr1, hr2⟩ := ihr i1 rn i2 hr
    refine ⟨by omega, ?_⟩
    simp only [PNode.preorderIndices, hl2, hr2]
    have happ := List.range'_append (i + 1) (i1 - (i + 1)) (i2 - i1) 1
    rw [show (i + 1) + 1 * (i1 - (i + 1)) = i1 by omega] at happ
    rw [happ, show (i2 - i1) + (i1 - (i + 1)) = i2 - (i + 1) by omega,
      show i2 - i = (i2 - (i + 1)) + 1 by omega, List.range'_succ]
  | case2 measure cols i =>
    intro nd j h
    simp only [buildHelper, Except.ok.injEq, Prod.mk.injEq] at h
    obtain ⟨rfl, rfl⟩ := h
    exact ⟨by omega, by simp [PNode.preorderIndices, show i + 1 - i = 1 by omega,
      List.range'_succ]⟩
  | case3 i =>
    intro nd j h
    simp only [buildHelper, reduceIte, Except.ok.injEq, Prod.mk.injEq] at h
    obtain ⟨rfl, rfl⟩ := h
    exact ⟨by omega, by simp [PNode.preorderIndices, show i + 1 - i = 1 by omega,
      List.range'_succ]⟩
  | case4 id i hne hmem =>
    intro nd j h
    simp only [buildHelper, if_neg hne, if_pos hmem, Except.ok.injEq,
      Prod.mk.injEq] at h
    obtain ⟨rfl, rfl⟩ := h
    exact ⟨by omega, by simp [PNode.preorderIndices, show i + 1 - i = 1 by omega,
      List.range'_succ]⟩
  | case5 id i hne hmem =>
    intro nd j h
    simp only [buildHelper, if_neg hne, if_neg hmem] at h
    cases h
  | case6 v i =>
    intro nd j h
    simp only [buildHelper, Except.ok.injEq, Prod.mk.injEq] at h
    obtain ⟨rfl, rfl⟩ := h
    exact ⟨by omega, by simp [PNode.preorderIndices, show i + 1 - i = 1 by omega,
      List.range'_succ]⟩
  | case7 f args i hmem =>
    intro nd j h
    rw [buildHelper.eq_def] at h
    simp only [if_pos hmem, Except.ok.injEq, Prod.mk.injEq] at h
    obtain ⟨rfl, rfl⟩ := h
    exact ⟨by omega, by simp [PNode.preorderIndices, show i + 1 - i = 1 by omega,
      List.range'_succ]⟩
  | case8 f i hmem a ih =>
    intro nd j h
    rw [buildHelper.eq_def] at h
    simp only [if_neg hmem] at h
    obtain ⟨⟨ln, i1⟩, hl, h⟩ := exceptBind_ok h
    rw [Except.ok.injEq, Prod.mk.injEq] at h
    obtain ⟨hnd, hj⟩ := h
    subst hnd
    subst hj
    obtain ⟨hl1, hl2⟩ := ih ln i1 hl
    refine ⟨by omega, ?_⟩
    simp only [PNode.preorderIndices, hl2, List.append_nil]
    rw [show i1 - i = (i1 - (i + 1)) + 1 by omega, List.range'_succ]
  | case9 f i hmem a b iha ihb =>
    intro nd j h
    rw [buildHelper.eq_def] at h
    simp only [if_neg hmem] at h
    obtain ⟨⟨ln, i1⟩, hl, h⟩ := exceptBind_ok h
    obtain ⟨⟨rn, i2⟩, hr, h⟩ := exceptBind_ok h
    rw [Except.ok.injEq, Prod.mk.injEq] at h
    obtain ⟨hnd, hj⟩ := h
    subst hnd
    subst hj
    obtain ⟨hl1, hl2⟩ := iha ln i1 hl
    obtain ⟨hr1, hr2⟩ := ihb i1 rn i2 hr
    refine ⟨by omega, ?_⟩
    simp only [PNode.preorderIndices, hl2, hr2]
    have happ := List.range'_append (i + 1) (i1 - (i + 1)) (i2 - i1) 1
    rw [show (i + 1) + 1 * (i1 - (i + 1)) = i1 by omega] at happ
    rw [happ, show (i2 - i1) + (i1 - (i + 1)) = i2 - (i + 1) by omega,
      show i2 - i = (i2 - (i + 1)) + 1 by omega, List.range'_succ]
  | case10 f args i hmem h1 h2 =>
    intro nd j h
    rcases args with _ | ⟨x, _ | ⟨y, _ | ⟨z, rest⟩⟩⟩
    · rw [buildHelper.eq_def] at h
      simp only [if_neg hmem] at h
      cases h
    · exact (h1 x rfl).elim
    · exact (h2 x y rfl).elim
    · rw [buildHelper.eq_def] at h
      simp only [if_neg hmem] at h
      cases h

/-- C3 (amended): for every accepted expression the node indices are
the dense range `[0, n_nodes)` and are strictly increasing in
PRE-order (root, left, right): `_ast_tree_helper` hands a node its
index BEFORE recursing into its children. -/
theorem create_from_ast_preorder_dense (m : List String) (a : Ast) (nd : PNode) (n : ℕ)
    (h : create_from_ast m a = .ok (nd, n)) :
    nd.preorderIndices = List.range n := by
  have hr := buildHelper_range m a 0 nd n h
  rw [List.range_eq_range']
  simpa using hr.2

/-- Witness for C3 (amended): the tree of `PR + 1` receives pre-order
indices `[0, 1, 2]`. -/
theorem create_from_ast_preorder_dense_witness :
    (PNode.internal "add" 0 (some (.base "PR" 1 []))
      (some (.constN (toString (1 : ℚ)) (.num 1) 2))).preorderIndices = List.range 3 :=
  create_from_ast_preorder_dense measure_functions (.binop .add (.name "PR") (.const 1))
    (PNode.internal "add" 0 (some (.base "PR" 1 []))
      (some (.constN (toString (1 : ℚ)) (.num 1) 2))) 3 rfl

/-- C3 counterexample: in the tree of `PR + 1` the root takes index
`0` before its children take `1` and `2`, so the post-order traversal
(left, right, root) reads the indices `[1, 2, 0]`, which is not
strictly increasing. -/
theorem create_from_ast_postorder_not_increasing :
    (create_from_ast measure_functions (.binop .add (.name "PR") (.const 1))).map
      (fun p => p.1.postorderIndices) = .ok [1, 2, 0]
    ∧ ¬ List.Pairwise (· < ·) [1, 2, 0] :=
  ⟨rfl, by decide⟩

/-- C8 (amended): for a call to a function that is not a measure name,
tree construction fails with the arity error exactly when the call has
zero or more than two arguments; a call with one or two arguments
recurses into them and attaches them as the left (and right)
children. -/
theorem call_arity_behavior (m : List String) (f : String) (args : List Ast) (i : ℕ)
    (hf : f ∉ m) :
    ((args.length = 0 ∨ 2 < args.length) →
      buildHelper m (.call f args) i = .error (.badCallArity f args.length))
    ∧ (∀ a, args = [a] →
      buildHelper m (.call f args) i =
        (buildHelper m a (i + 1)).map (fun p => (PNode.internal f i (some p.1) none, p.2)))
    ∧ (∀ a b, args = [a, b] →
      buildHelper m (.call f args) i =
        (buildHelper m a (i + 1)).bind (fun p =>
          (buildHelper m b p.2).map (fun q =>
            (PNode.internal f i (some p.1) (some q.1), q.2)))) := by
  refine ⟨?_, ?_, ?_⟩
  · intro hlen
    rcases args with _ | ⟨x, _ | ⟨y, _ | ⟨z, rest⟩⟩⟩
    · rw [buildHelper.eq_def]
      simp [if_neg hf]
    · simp at hlen
    · simp at hlen
    · rw [buildHelper.eq_def]
      simp [if_neg hf]
  · rintro a rfl
    rw [buildHelper.eq_def]
    simp only [if_neg hf]
    cases hres : buildHelper m a (i + 1) with
    | error e => simp [hres, Bind.bind, Except.bind, Except.map]
    | ok p =>
      cases p
      simp [hres, Bind.bind, Except.bind, Except.map]
  · rintro a b rfl
    rw [buildHelper.eq_def]
    simp only [if_neg hf]
    cases hres : buildHelper m a (i + 1) with
    | error e => simp [hres, Bind.bind, Except.bind, Except.map]
    | ok p =>
      cases p with
      | mk ln i1 =>
        cases hres2 : buildHelper m b i1 with
        | error e => simp [hres, hres2, Bind.bind, Except.bind, Except.map]
        | ok q =>
          cases q
          simp [hres, hres2, Bind.bind, Except.bind, Except.map]

/-- Witness for C8 (amended): `min` called with a single argument is
accepted, the argument becoming the left child. -/
theorem call_arity_behavior_witness :
    buildHelper measure_functions (.call "min" [.const 2]) 0 =
      (buildHelper measure_functions (.const 2) 1).map
        (fun p => (PNode.internal "min" 0 (some p.1) none, p.2)) :=
  (call_arity_behavior measure_functions "min" [.const 2] 0 (by decide)).2.1 (.const 2) rfl

/-- C8 counterexample: `abs` called with TWO arguments does not raise;
construction succeeds and attaches both arguments as children (the
source only rejects calls with zero or more than two arguments). -/
theorem abs_two_args_accepted :
    buildHelper measure_functions (.call "abs" [.name "PR", .name "FPR"]) 0 =
      .ok (.internal "abs" 0 (some (.base "PR" 1 [])) (some (.base "FPR" 2 [])), 3) :=
  rfl
